import Mathlib

/-!
Verification of `paasta_tools/cleanup_chronos_jobs.py`.

The script computes the orphaned chronos jobs (running but not expected),
deletes each orphan's tasks and then each orphan's job definition through the
chronos client, catching per-call exceptions, and prints a bucketed report
with exit code 1 when any deletion attempt failed.

The embedding below translates the script's functions directly.  Python
exceptions at the level the script handles (`except Exception`) are the type
`PyExc`; an api call either returns a value normally (`Except.ok`) or raises
(`Except.error`).  The part of `main` after discovery (lines 96-135) becomes
`mainRun`, a pure function of the client and the two discovered job lists,
returning every observable of the run: work list, response lists, buckets,
printed lines, exit code, and the sequence of client calls issued.
-/

/-- A Python exception value at the level the script handles: `except
Exception` on line 51 catches any `Exception`-derived value, and the chronos
client itself rethrows a plain `Exception` (docstring, lines 37-39), so a
single carrier holding the exception's message suffices. -/
structure PyExc where
  msg : String
deriving DecidableEq, Repr

/-- A Python value as it appears in the script's response lists.  The chronos
api calls return the body of the http response (`None` on a successful 204,
per the docstring on lines 41-45, or some other payload), and the wrapper
`execute_chronos_api_call_for_job` may also hand back a caught exception
object as an ordinary value, so exception objects are one kind of value. -/
inductive PyVal where
  | none : PyVal
  | str : String → PyVal
  | exc : PyExc → PyVal
deriving DecidableEq, Repr

/-- Python `isinstance(x, Exception)` applied to a recorded response value
(main, lines 102 and 111). -/
def isinstanceException : PyVal → Bool
  | PyVal.exc _ => true
  | _ => false

/-- An api-call method as the script sees it: for a job name, either a value
returned normally (`Except.ok`) or an exception raised (`Except.error`). -/
abbrev ApiCall := String → Except PyExc PyVal

/-- The chronos client as the cleanup path uses it: its `delete` and
`delete_tasks` methods. -/
structure ChronosClient where
  delete : ApiCall
  delete_tasks : ApiCall

/-- Embeds `execute_chronos_api_call_for_job` (lines 34-52): attempt the call;
a raised exception is caught by `except Exception as e` and returned as the
result value (`return e`), so that the other deletes are completed. -/
def execute_chronos_api_call_for_job (api_call : ApiCall) (job : String) : PyVal :=
  match api_call job with
  | Except.ok v => v
  | Except.error e => PyVal.exc e

/-- Embeds `cleanup_jobs` (lines 55-57): maps the job list to a list of
`(job, response-or-exception)` pairs using `client.delete`. -/
def cleanup_jobs (client : ChronosClient) (jobs : List String) : List (String × PyVal) :=
  jobs.map (fun job => (job, execute_chronos_api_call_for_job client.delete job))

/-- Embeds `cleanup_tasks` (lines 60-62): maps the job list to a list of
`(job, response-or-exception)` pairs using `client.delete_tasks`. -/
def cleanup_tasks (client : ChronosClient) (jobs : List String) : List (String × PyVal) :=
  jobs.map (fun job => (job, execute_chronos_api_call_for_job client.delete_tasks job))

/-- The CPython 2 string hash on a 64-bit build: `x = ord(s[0]) << 7`, then
`x = (1000003*x) ^ ord(c)` over every character with C `long` wraparound
(arithmetic mod 2^64 on the bit pattern), then `x ^= len(s)`, with -1 mapped
to -2; the empty string hashes to 0.  The script is Python 2 (`print`
statements), where string hashing is deterministic — no per-process
randomization is in effect by default.  Job names are ASCII, for which this
byte-level model is exact (for example, the hash of "a" is 12416037344). -/
def py2StringHash (s : String) : Nat :=
  match s.data with
  | [] => 0
  | c :: _ =>
    let x0 := (c.toNat <<< 7) % (2 ^ 64)
    let x1 := s.data.foldl (fun x ch => ((1000003 * x) % (2 ^ 64)) ^^^ ch.toNat) x0
    let x2 := x1 ^^^ s.length
    if x2 = 2 ^ 64 - 1 then 2 ^ 64 - 2 else x2

/-- The hash-table slot a string occupies in a fresh CPython 2 set: the table
has eight slots while the set holds at most five elements, and an element
lands in slot `hash & 7`. -/
def py2Slot (s : String) : Nat := py2StringHash s % 8

/-- The membership content of a CPython set built from a list: one copy of
each distinct element (inserting an element already present is a no-op), the
first occurrence kept. -/
def pyDedup : List String → List String
  | [] => []
  | x :: rest => x :: (pyDedup rest).filter (fun y => y != x)

/-- Insert a string into a slot-ordered list, before the first element whose
slot is strictly larger. -/
def insertBySlot (a : String) : List String → List String
  | [] => [a]
  | b :: rest =>
    if py2Slot a < py2Slot b then a :: b :: rest else b :: insertBySlot a rest

/-- Arrange a list of strings by ascending hash slot. -/
def sortBySlot : List String → List String
  | [] => []
  | a :: rest => insertBySlot a (sortBySlot rest)

/-- Model of a CPython 2 set of strings as read back out by iteration: one
copy of each distinct element, enumerated in hash-table order — ascending slot
`hash & 7` of the eight-slot table a small set uses.  This is exactly CPython
2's deterministic iteration order for a set of at most five elements whose
hashes occupy distinct slots, the regime of every concrete set in this file
(so a set holding "b" and "c" iterates as ["c", "b"], slots 3 and 2, while a
set holding "a" and "b" iterates as ["a", "b"], slots 0 and 3).  Slot
collisions, and table resizes past five elements, would perturb the
enumeration order but never the membership, and every ordering-independent
fact proved below is insensitive to them.  No sorting by value is applied
anywhere, matching the source. -/
def pySet (xs : List String) : List String := sortBySlot (pyDedup xs)

/-- Embeds `jobs_to_delete` (lines 65-66):
`list(set(actual_jobs).difference(set(expected_jobs)))`.  The difference keeps
the elements of the actual set that are not in the expected set; `list` reads
the resulting set out in set-iteration order (see `pySet`). -/
def jobs_to_delete (expected_jobs actual_jobs : List String) : List String :=
  (pySet actual_jobs).filter (fun j => !(decide (j ∈ pySet expected_jobs)))

/-- Embeds `format_list_output` (lines 69-70): the string
`'%s\n  %s' % (title, '\n  '.join(job_names))`. -/
def format_list_output (title : String) (job_names : List String) : String :=
  title ++ "\n  " ++ String.intercalate "\n  " job_names

/-- Embeds `expected_job_names` (lines 77-82): maps each
`(service_name, job_name)` pair to `job[-1]`, the job name. -/
def expected_job_names (service_job_pairs : List (String × String)) : List String :=
  service_job_pairs.map (fun job => job.2)

/-- The success bucket built by the classification loops in `main` (lines
99-105 for tasks, 108-114 for jobs): the responses whose recorded value is not
an `Exception` instance, appended in response order. -/
def successes_of (responses : List (String × PyVal)) : List (String × PyVal) :=
  responses.filter (fun response => !(isinstanceException response.2))

/-- The failure bucket built by the same loops: the responses for which
`isinstance(response[-1], Exception)` holds, appended in response order. -/
def failures_of (responses : List (String × PyVal)) : List (String × PyVal) :=
  responses.filter (fun response => isinstanceException response.2)

/-- One api call issued against the client, for tracing which calls a run
makes and in which order. -/
inductive ClientCall where
  | delete_tasks : String → ClientCall
  | delete : String → ClientCall
deriving DecidableEq, Repr

/-- True for a `delete_tasks` (task-deletion) call, false for a `delete`
(job-deletion) call. -/
def ClientCall.isTaskCall : ClientCall → Bool
  | ClientCall.delete_tasks _ => true
  | ClientCall.delete _ => false

/-- Everything observable about one run of `main` (lines 96-135) once
discovery has produced the expected and running job lists: the work list, the
two raw response lists, the four report buckets, the lines printed to stdout,
the process exit code, and the client calls issued. -/
structure RunResult where
  to_delete : List String
  task_responses : List (String × PyVal)
  task_successes : List (String × PyVal)
  task_failures : List (String × PyVal)
  job_responses : List (String × PyVal)
  job_successes : List (String × PyVal)
  job_failures : List (String × PyVal)
  output : List String
  exit_code : Nat
  calls : List ClientCall

/-- Embeds `main` from line 96 on.  `cleanup_tasks(client, to_delete)` on line
98 runs to completion — the list comprehension issues one `client.delete_tasks`
call per job, in list order — before `cleanup_jobs(client, to_delete)` on line
107 issues one `client.delete` call per job, in list order; the `calls` field
records that sequence.  Each executed `print` statement contributes one entry
to `output`.  `sys.exit(1)` on line 135 is exit code 1; falling off the end of
`main` is exit code 0. -/
def mainRun (client : ChronosClient) (expected_jobs running_jobs : List String) : RunResult :=
  let to_delete := jobs_to_delete expected_jobs running_jobs
  let task_responses := cleanup_tasks client to_delete
  let job_responses := cleanup_jobs client to_delete
  { to_delete := to_delete
    task_responses := task_responses
    task_successes := successes_of task_responses
    task_failures := failures_of task_responses
    job_responses := job_responses
    job_successes := successes_of job_responses
    job_failures := failures_of job_responses
    output :=
      if to_delete.length = 0 then
        [("No Chronos Jobs to remove")]
      else
        (if (successes_of task_responses).length > 0 then
          [format_list_output ("Successfully Removed Tasks (if any were running) for:")
            ((successes_of task_responses).map Prod.fst)]
         else []) ++
        (if (failures_of task_responses).length > 0 then
          [format_list_output ("Failed to Delete Tasks for:")
            ((failures_of task_responses).map Prod.fst)]
         else []) ++
        (if (successes_of job_responses).length > 0 then
          [format_list_output ("Successfully Removed Jobs:")
            ((successes_of job_responses).map Prod.fst)]
         else []) ++
        (if (failures_of job_responses).length > 0 then
          [format_list_output ("Failed to Delete Jobs:")
            ((failures_of job_responses).map Prod.fst)]
         else [])
    exit_code :=
      if to_delete.length = 0 then 0
      else if (failures_of job_responses).length > 0 ∨ (failures_of task_responses).length > 0
        then 1
      else 0
    calls := to_delete.map ClientCall.delete_tasks ++ to_delete.map ClientCall.delete }

/-- Fixture: a client whose every call returns `None`, as chronos does on a
successful deletion (204 No Content). -/
def clientAllOk : ChronosClient where
  delete := fun _ => Except.ok PyVal.none
  delete_tasks := fun _ => Except.ok PyVal.none

/-- Fixture: a client that raises on every call. -/
def clientBoom : ChronosClient where
  delete := fun _ => Except.error ⟨("delete failed")⟩
  delete_tasks := fun _ => Except.error ⟨("delete_tasks failed")⟩

/-- Fixture: a client whose task deletion raises for job `"a"` only; every
other call returns `None`. -/
def clientOneFail : ChronosClient where
  delete := fun _ => Except.ok PyVal.none
  delete_tasks := fun job =>
    if job = ("a") then Except.error ⟨("boom")⟩ else Except.ok PyVal.none

/-- Fixture: a client whose job deletion returns an `Exception` object as its
value without raising; task deletion returns `None`. -/
def clientExcPayload : ChronosClient where
  delete := fun _ => Except.ok (PyVal.exc ⟨("returned not raised")⟩)
  delete_tasks := fun _ => Except.ok PyVal.none

theorem mem_pyDedup (a : String) (xs : List String) : a ∈ pyDedup xs ↔ a ∈ xs := by
  induction xs with
  | nil => simp [pyDedup]
  | cons x rest ih =>
    by_cases hax : a = x
    · subst hax; simp [pyDedup]
    · simp [pyDedup, List.mem_filter, ih, hax, bne_iff_ne, Ne]

theorem nodup_pyDedup (xs : List String) : (pyDedup xs).Nodup := by
  induction xs with
  | nil => simp [pyDedup]
  | cons x rest ih =>
    rw [pyDedup, List.nodup_cons]
    refine ⟨?_, ih.filter _⟩
    intro hx
    have hne := (List.mem_filter.mp hx).2
    simp at hne

theorem insertBySlot_perm (a : String) (l : List String) :
    (insertBySlot a l).Perm (a :: l) := by
  induction l with
  | nil => exact List.Perm.refl _
  | cons b rest ih =>
    rw [insertBySlot]
    by_cases h : py2Slot a < py2Slot b
    · rw [if_pos h]
    · rw [if_neg h]
      exact (ih.cons b).trans (List.Perm.swap a b rest)

theorem sortBySlot_perm (l : List String) : (sortBySlot l).Perm l := by
  induction l with
  | nil => exact List.Perm.refl _
  | cons a rest ih =>
    rw [sortBySlot]
    exact (insertBySlot_perm a (sortBySlot rest)).trans (ih.cons a)

theorem mem_pySet (a : String) (xs : List String) : a ∈ pySet xs ↔ a ∈ xs :=
  ((sortBySlot_perm (pyDedup xs)).mem_iff).trans (mem_pyDedup a xs)

theorem nodup_pySet (xs : List String) : (pySet xs).Nodup :=
  ((sortBySlot_perm (pyDedup xs)).nodup_iff).mpr (nodup_pyDedup xs)

theorem mem_jobs_to_delete (j : String) (E A : List String) :
    j ∈ jobs_to_delete E A ↔ j ∈ A ∧ j ∉ E := by
  simp [jobs_to_delete, List.mem_filter, mem_pySet]

theorem nodup_jobs_to_delete (E A : List String) : (jobs_to_delete E A).Nodup :=
  (nodup_pySet A).filter _

theorem filter_snd_map_pair (td : List String) (f : String → PyVal) (p : PyVal → Bool) :
    (td.map (fun j => (j, f j))).filter (fun r => p r.2) =
      (td.filter (fun j => p (f j))).map (fun j => (j, f j)) := by
  induction td with
  | nil => rfl
  | cons x rest ih => cases hpx : p (f x) <;> simp [List.filter_cons, hpx, ih]

theorem map_fst_map_pair (td : List String) (f : String → PyVal) :
    ((td.map (fun j => (j, f j))).map Prod.fst) = td := by
  induction td with
  | nil => rfl
  | cons x rest ih => simp only [List.map_cons, ih]

theorem failures_of_map (td : List String) (f : String → PyVal) :
    failures_of (td.map (fun j => (j, f j))) =
      (td.filter (fun j => isinstanceException (f j))).map (fun j => (j, f j)) :=
  filter_snd_map_pair td f _

theorem successes_of_map (td : List String) (f : String → PyVal) :
    successes_of (td.map (fun j => (j, f j))) =
      (td.filter (fun j => !(isinstanceException (f j)))).map (fun j => (j, f j)) :=
  filter_snd_map_pair td f (fun v => !(isinstanceException v))

theorem failures_of_map_eq_nil (td : List String) (f : String → PyVal) :
    failures_of (td.map (fun j => (j, f j))) = [] ↔
      ∀ j ∈ td, isinstanceException (f j) = false := by
  rw [failures_of_map]
  simp

theorem failures_of_map_length_pos (td : List String) (f : String → PyVal) :
    0 < (failures_of (td.map (fun j => (j, f j)))).length ↔
      ∃ j ∈ td, isinstanceException (f j) = true := by
  rw [failures_of_map]
  simp [List.length_pos, List.filter_eq_nil_iff]

theorem filter_eq_single (l : List String) (q : String → Bool) (a : String)
    (hnd : l.Nodup) (ha : a ∈ l) (hq : ∀ x ∈ l, q x = true ↔ x = a) :
    l.filter q = [a] := by
  induction l with
  | nil => cases ha
  | cons x rest ih =>
    rcases List.nodup_cons.mp hnd with ⟨hx, hrest⟩
    rcases List.mem_cons.mp ha with rfl | hmem
    · rw [List.filter_cons_of_pos ((hq _ (List.mem_cons_self _ _)).mpr rfl)]
      have hnone : rest.filter q = [] := by
        rw [List.filter_eq_nil_iff]
        intro b hb hqb
        exact hx (((hq b (List.mem_cons_of_mem _ hb)).mp hqb) ▸ hb)
      rw [hnone]
    · have hxa : x ≠ a := fun h => hx (h ▸ hmem)
      rw [List.filter_cons_of_neg]
      · exact ih hrest hmem (fun b hb => hq b (List.mem_cons_of_mem _ hb))
      · simp [hq x (List.mem_cons_self _ _), hxa]

theorem mainRun_to_delete (client : ChronosClient) (E R : List String) :
    (mainRun client E R).to_delete = jobs_to_delete E R := rfl

theorem mainRun_task_responses (client : ChronosClient) (E R : List String) :
    (mainRun client E R).task_responses = cleanup_tasks client (jobs_to_delete E R) := rfl

theorem mainRun_task_successes (client : ChronosClient) (E R : List String) :
    (mainRun client E R).task_successes =
      successes_of (cleanup_tasks client (jobs_to_delete E R)) := rfl

theorem mainRun_task_failures (client : ChronosClient) (E R : List String) :
    (mainRun client E R).task_failures =
      failures_of (cleanup_tasks client (jobs_to_delete E R)) := rfl

theorem mainRun_job_responses (client : ChronosClient) (E R : List String) :
    (mainRun client E R).job_responses = cleanup_jobs client (jobs_to_delete E R) := rfl

theorem mainRun_job_successes (client : ChronosClient) (E R : List String) :
    (mainRun client E R).job_successes =
      successes_of (cleanup_jobs client (jobs_to_delete E R)) := rfl

theorem mainRun_job_failures (client : ChronosClient) (E R : List String) :
    (mainRun client E R).job_failures =
      failures_of (cleanup_jobs client (jobs_to_delete E R)) := rfl

theorem mainRun_exit_code (client : ChronosClient) (E R : List String) :
    (mainRun client E R).exit_code =
      (if (jobs_to_delete E R).length = 0 then 0
       else if (failures_of (cleanup_jobs client (jobs_to_delete E R))).length > 0 ∨
           (failures_of (cleanup_tasks client (jobs_to_delete E R))).length > 0
         then 1
       else 0) := rfl

theorem mainRun_calls (client : ChronosClient) (E R : List String) :
    (mainRun client E R).calls =
      (jobs_to_delete E R).map ClientCall.delete_tasks ++
        (jobs_to_delete E R).map ClientCall.delete := rfl

theorem map_fst_cleanup_tasks (client : ChronosClient) (jobs : List String) :
    (cleanup_tasks client jobs).map Prod.fst = jobs := by
  unfold cleanup_tasks
  exact map_fst_map_pair jobs _

theorem map_fst_cleanup_jobs (client : ChronosClient) (jobs : List String) :
    (cleanup_jobs client jobs).map Prod.fst = jobs := by
  unfold cleanup_jobs
  exact map_fst_map_pair jobs _

theorem filter_length_pos_iff (l : List String) (q : String → Bool) :
    0 < (l.filter q).length ↔ ∃ a ∈ l, q a = true := by
  rw [List.length_pos]
  constructor
  · intro h
    rcases List.exists_mem_of_ne_nil _ h with ⟨a, ha⟩
    rcases List.mem_filter.mp ha with ⟨hmem, hq⟩
    exact ⟨a, hmem, hq⟩
  · rintro ⟨a, hmem, hq⟩ hnil
    have hmf : a ∈ l.filter q := List.mem_filter.mpr ⟨hmem, hq⟩
    rw [hnil] at hmf
    cases hmf

theorem filter_length_zero_iff (l : List String) (q : String → Bool) :
    ¬ 0 < (l.filter q).length ↔ ∀ a ∈ l, q a = false := by
  rw [filter_length_pos_iff]
  push_neg
  simp [Bool.not_eq_true]

theorem isTaskCall_append_get (td : List String) (k : Nat)
    (hk : k < (td.map ClientCall.delete_tasks ++ td.map ClientCall.delete).length) :
    ((td.map ClientCall.delete_tasks ++ td.map ClientCall.delete).get ⟨k, hk⟩).isTaskCall =
      decide (k < td.length) := by
  rw [List.get_eq_getElem]
  by_cases h : k < td.length
  · rw [List.getElem_append_left (by simpa using h)]
    simp [ClientCall.isTaskCall, h]
  · have hge : (td.map ClientCall.delete_tasks).length ≤ k := by
      simpa using Nat.le_of_not_lt h
    rw [List.getElem_append_right hge]
    simp [ClientCall.isTaskCall, h]

/-- Claim C3: for all finite inputs E (expected jobs) and A (actual jobs),
`jobs_to_delete E A` contains exactly the elements of A that are not in E,
contains no duplicates, is empty iff every element of A is in E, and its
membership is independent of the ordering of the inputs and of repeated
elements within A or E. -/
theorem jobs_to_delete_spec (E A E2 A2 : List String)
    (hE : ∀ x, x ∈ E ↔ x ∈ E2) (hA : ∀ x, x ∈ A ↔ x ∈ A2) :
    (∀ j, j ∈ jobs_to_delete E A ↔ j ∈ A ∧ j ∉ E) ∧
    (jobs_to_delete E A).Nodup ∧
    (jobs_to_delete E A = [] ↔ ∀ j ∈ A, j ∈ E) ∧
    (∀ j, j ∈ jobs_to_delete E A ↔ j ∈ jobs_to_delete E2 A2) := by
  refine ⟨fun j => mem_jobs_to_delete j E A, nodup_jobs_to_delete E A, ?_, ?_⟩
  · constructor
    · intro h j hj
      by_contra hne
      have hmem : j ∈ jobs_to_delete E A := (mem_jobs_to_delete j E A).mpr ⟨hj, hne⟩
      rw [h] at hmem
      cases hmem
    · intro hall
      rw [List.eq_nil_iff_forall_not_mem]
      intro j hj
      rcases (mem_jobs_to_delete j E A).mp hj with ⟨hjA, hjE⟩
      exact hjE (hall j hjA)
  · intro j
    rw [mem_jobs_to_delete, mem_jobs_to_delete]
    constructor
    · rintro ⟨h1, h2⟩
      exact ⟨(hA j).mp h1, fun hc => h2 ((hE j).mpr hc)⟩
    · rintro ⟨h1, h2⟩
      exact ⟨(hA j).mpr h1, fun hc => h2 ((hE j).mp hc)⟩

/-- Claim C3 witness: the specification applied at concrete inputs, with the
second pair of inputs a permuted and duplicated variant of the first. -/
theorem jobs_to_delete_spec_witness :
    ("b") ∈ jobs_to_delete (["a"]) (["a", "b"]) ∧
    (jobs_to_delete (["a"]) (["a", "b"])).Nodup ∧
    (∀ j, j ∈ jobs_to_delete (["a"]) (["a", "b"]) ↔
      j ∈ jobs_to_delete (["a", "a"]) (["b", "a", "b"])) := by
  have h := jobs_to_delete_spec (["a"]) (["a", "b"]) (["a", "a"]) (["b", "a", "b"])
    (by intro x; simp) (by intro x; simp only [List.mem_cons, List.not_mem_nil, or_false]; tauto)
  exact ⟨(h.1 ("b")).mpr (by decide), h.2.1, h.2.2.2⟩

/-- Claim C5 counterexample: `jobs_to_delete` applies no sorting.  For the
orphans "b" and "c", CPython 2's deterministic set iteration is hash-slot
order — "b" lands in slot 3 and "c" in slot 2 of the eight-slot table — so
the real program returns `["c", "b"]`, which is not sorted by identifier
value. -/
theorem diff_not_sorted_counterexample :
    jobs_to_delete [] (["b", "c"]) = ["c", "b"] ∧
    ¬ List.Sorted (fun x y => x ≤ y) (jobs_to_delete [] (["b", "c"])) := by
  have heq : jobs_to_delete [] (["b", "c"]) = ["c", "b"] := by decide
  refine ⟨heq, ?_⟩
  rw [heq]
  intro h
  have hle : ("c" : String) ≤ ("b" : String) :=
    (List.sorted_cons.mp h).1 _ (List.mem_cons_self _ _)
  exact absurd hle (by rw [String.le_iff_toList_le]; decide)

/-- Claim C5 amended: `jobs_to_delete` determines the membership and the
duplicate-freedom of the work list, but applies no sorting — the sequence is
read out in the backing set's hash-slot iteration order, deterministic for
the interpreter build but in general not sorted by identifier value, so only
ordering-independent facts about the work list are guaranteed. -/
theorem diff_membership_determined (E A : List String) :
    (jobs_to_delete E A).Nodup ∧ (∀ j, j ∈ jobs_to_delete E A ↔ j ∈ A ∧ j ∉ E) :=
  ⟨nodup_jobs_to_delete E A, fun j => mem_jobs_to_delete j E A⟩

/-- Claim C4 counterexample: the recorded value IS inspected — `main`
classifies with `isinstance(response[-1], Exception)` — so a client call that
returns normally with an `Exception` object as its payload is recorded as a
failure, not a success: under `clientExcPayload`, `delete` returns (rather
than raises) an exception object, and the job lands in the job-failure bucket
with exit code 1. -/
theorem payload_inspection_counterexample :
    clientExcPayload.delete ("j") = Except.ok (PyVal.exc ⟨("returned not raised")⟩) ∧
    isinstanceException (execute_chronos_api_call_for_job clientExcPayload.delete ("j")) = true ∧
    (mainRun clientExcPayload [] (["j"])).job_failures.map Prod.fst = [("j")] ∧
    (mainRun clientExcPayload [] (["j"])).job_successes = [] ∧
    (mainRun clientExcPayload [] (["j"])).exit_code = 1 :=
  ⟨rfl, rfl, by decide, by decide, by decide⟩

/-- Claim C4 amended: a client call that returns normally is recorded
unchanged, and it is classified as a success exactly when the returned
payload is not itself an `Exception` instance — the classification inspects
the recorded value with `isinstance`, which coincides with "no exception was
raised" only because the backend returns non-`Exception` payloads on
success. -/
theorem normal_return_classification (api_call : ApiCall) (job : String) (v : PyVal)
    (h : api_call job = Except.ok v) :
    execute_chronos_api_call_for_job api_call job = v ∧
    (isinstanceException (execute_chronos_api_call_for_job api_call job) = false ↔
      isinstanceException v = false) := by
  have hex : execute_chronos_api_call_for_job api_call job = v := by
    simp [execute_chronos_api_call_for_job, h]
  exact ⟨hex, by rw [hex]⟩

/-- Claim C4 amended, witness: a call returning `None` is recorded as `None`
and classified as a success. -/
theorem normal_return_classification_witness :
    execute_chronos_api_call_for_job clientAllOk.delete ("j") = PyVal.none ∧
    (isinstanceException (execute_chronos_api_call_for_job clientAllOk.delete ("j")) = false ↔
      isinstanceException PyVal.none = false) :=
  normal_return_classification clientAllOk.delete ("j") PyVal.none rfl

/-- Claim C2: for every job and each delete operation, an exception raised by
the underlying client call is caught at the boundary of that single operation
(`execute_chronos_api_call_for_job` returns the exception as the recorded
value) and counts as a failed outcome there; processing of the full job list
is never aborted — both cleanup passes still produce one response per job of
the input list, in order. -/
theorem per_operation_isolation (client : ChronosClient) (jobs : List String) (job : String)
    (eT eJ : PyExc)
    (ht : client.delete_tasks job = Except.error eT)
    (hd : client.delete job = Except.error eJ) :
    execute_chronos_api_call_for_job client.delete_tasks job = PyVal.exc eT ∧
    execute_chronos_api_call_for_job client.delete job = PyVal.exc eJ ∧
    isinstanceException (execute_chronos_api_call_for_job client.delete_tasks job) = true ∧
    isinstanceException (execute_chronos_api_call_for_job client.delete job) = true ∧
    (cleanup_tasks client jobs).map Prod.fst = jobs ∧
    (cleanup_jobs client jobs).map Prod.fst = jobs := by
  have h1 : execute_chronos_api_call_for_job client.delete_tasks job = PyVal.exc eT := by
    simp [execute_chronos_api_call_for_job, ht]
  have h2 : execute_chronos_api_call_for_job client.delete job = PyVal.exc eJ := by
    simp [execute_chronos_api_call_for_job, hd]
  exact ⟨h1, h2, by rw [h1]; rfl, by rw [h2]; rfl,
    map_fst_cleanup_tasks client jobs, map_fst_cleanup_jobs client jobs⟩

/-- Claim C2 witness: under a client that raises on every call, both
operations on job "a" are caught and recorded, and both cleanup passes still
cover the whole list `["a", "b"]`. -/
theorem per_operation_isolation_witness :
    execute_chronos_api_call_for_job clientBoom.delete_tasks ("a") =
      PyVal.exc ⟨("delete_tasks failed")⟩ ∧
    execute_chronos_api_call_for_job clientBoom.delete ("a") = PyVal.exc ⟨("delete failed")⟩ ∧
    isinstanceException (execute_chronos_api_call_for_job clientBoom.delete_tasks ("a")) = true ∧
    isinstanceException (execute_chronos_api_call_for_job clientBoom.delete ("a")) = true ∧
    (cleanup_tasks clientBoom (["a", "b"])).map Prod.fst = ["a", "b"] ∧
    (cleanup_jobs clientBoom (["a", "b"])).map Prod.fst = ["a", "b"] :=
  per_operation_isolation clientBoom (["a", "b"]) ("a")
    ⟨("delete_tasks failed")⟩ ⟨("delete failed")⟩ rfl rfl

/-- Claim C9: `cleanup_tasks` and `cleanup_jobs` each return a list of the
same length as the input job list whose i-th element pairs the i-th input job
with the outcome of that job's call, preserving the input order. -/
theorem cleanup_shape (client : ChronosClient) (jobs : List String) :
    (cleanup_tasks client jobs).length = jobs.length ∧
    (cleanup_jobs client jobs).length = jobs.length ∧
    (∀ i (hi : i < (cleanup_tasks client jobs).length) (hj : i < jobs.length),
      (cleanup_tasks client jobs).get ⟨i, hi⟩ =
        (jobs.get ⟨i, hj⟩,
          execute_chronos_api_call_for_job client.delete_tasks (jobs.get ⟨i, hj⟩))) ∧
    (∀ i (hi : i < (cleanup_jobs client jobs).length) (hj : i < jobs.length),
      (cleanup_jobs client jobs).get ⟨i, hi⟩ =
        (jobs.get ⟨i, hj⟩,
          execute_chronos_api_call_for_job client.delete (jobs.get ⟨i, hj⟩))) := by
  refine ⟨by simp [cleanup_tasks], by simp [cleanup_jobs], ?_, ?_⟩ <;>
    intro i hi hj <;>
    simp [cleanup_tasks, cleanup_jobs, List.get_eq_getElem]

/-- Claim C7: if the orphan set is empty, the run issues zero client calls
(the executor over an empty job list makes none), the exit code is 0, and the
output is exactly the message "No Chronos Jobs to remove", with no bucket
sections printed. -/
theorem empty_orphans_no_calls (client : ChronosClient) (expected_jobs running_jobs : List String)
    (h : (mainRun client expected_jobs running_jobs).to_delete = []) :
    (mainRun client expected_jobs running_jobs).calls = [] ∧
    cleanup_tasks client [] = [] ∧
    cleanup_jobs client [] = [] ∧
    (mainRun client expected_jobs running_jobs).exit_code = 0 ∧
    (mainRun client expected_jobs running_jobs).output = [("No Chronos Jobs to remove")] := by
  have h0 : jobs_to_delete expected_jobs running_jobs = [] := h
  refine ⟨?_, rfl, rfl, ?_, ?_⟩ <;> simp [mainRun, h0]

/-- Claim C7 witness: with expected and running both `["x"]` the orphan set is
empty, no call is made, and the run prints the message and succeeds. -/
theorem empty_orphans_no_calls_witness :
    (mainRun clientAllOk (["x"]) (["x"])).calls = [] ∧
    cleanup_tasks clientAllOk [] = [] ∧
    cleanup_jobs clientAllOk [] = [] ∧
    (mainRun clientAllOk (["x"]) (["x"])).exit_code = 0 ∧
    (mainRun clientAllOk (["x"]) (["x"])).output = [("No Chronos Jobs to remove")] :=
  empty_orphans_no_calls clientAllOk (["x"]) (["x"]) (by decide)

/-- Claim C8: no job identifier appears twice in the cleanup work list, and
every job identifier in the orphan set yields exactly one task-deletion
outcome and exactly one job-deletion outcome per run. -/
theorem unique_outcomes (client : ChronosClient) (expected_jobs running_jobs : List String) :
    (mainRun client expected_jobs running_jobs).to_delete.Nodup ∧
    ∀ j ∈ (mainRun client expected_jobs running_jobs).to_delete,
      ((mainRun client expected_jobs running_jobs).task_responses.map Prod.fst).count j = 1 ∧
      ((mainRun client expected_jobs running_jobs).job_responses.map Prod.fst).count j = 1 := by
  simp only [mainRun_to_delete, mainRun_task_responses, mainRun_job_responses,
    map_fst_cleanup_tasks, map_fst_cleanup_jobs]
  refine ⟨nodup_jobs_to_delete _ _, ?_⟩
  intro j hj
  exact ⟨List.count_eq_one_of_mem (nodup_jobs_to_delete _ _) hj,
    List.count_eq_one_of_mem (nodup_jobs_to_delete _ _) hj⟩

/-- Claim C10: within a single run, every `delete_tasks` call is issued before
any `delete` call — the trace is the whole task batch (in work-list order)
followed by the whole job batch, so the index of any task call is strictly
below the index of any job call. -/
theorem tasks_before_jobs (client : ChronosClient) (expected_jobs running_jobs : List String)
    (i j : Nat)
    (hi : i < (mainRun client expected_jobs running_jobs).calls.length)
    (hj : j < (mainRun client expected_jobs running_jobs).calls.length)
    (htask : ((mainRun client expected_jobs running_jobs).calls.get ⟨i, hi⟩).isTaskCall = true)
    (hjob : ((mainRun client expected_jobs running_jobs).calls.get ⟨j, hj⟩).isTaskCall = false) :
    i < j := by
  have hi2 : i < ((jobs_to_delete expected_jobs running_jobs).map ClientCall.delete_tasks ++
      (jobs_to_delete expected_jobs running_jobs).map ClientCall.delete).length := hi
  have hj2 : j < ((jobs_to_delete expected_jobs running_jobs).map ClientCall.delete_tasks ++
      (jobs_to_delete expected_jobs running_jobs).map ClientCall.delete).length := hj
  have h1 : decide (i < (jobs_to_delete expected_jobs running_jobs).length) = true := by
    rw [← isTaskCall_append_get _ i hi2]
    exact htask
  have h2 : decide (j < (jobs_to_delete expected_jobs running_jobs).length) = false := by
    rw [← isTaskCall_append_get _ j hj2]
    exact hjob
  exact Nat.lt_of_lt_of_le (of_decide_eq_true h1)
    (Nat.le_of_not_lt (of_decide_eq_false h2))

/-- Claim C10 witness: with one orphan, the task call at index 0 precedes the
job call at index 1. -/
theorem tasks_before_jobs_witness : (0 : Nat) < 1 :=
  tasks_before_jobs clientAllOk [] (["a"]) 0 1 (by decide) (by decide) (by decide) (by decide)

/-- Claim C1: the exit status is 0 iff the orphan set is empty or every
task-deletion and job-deletion attempt was recorded as succeeded, and it is 1
iff the orphan set is non-empty and at least one task-deletion or job-deletion
attempt was recorded as failed. -/
theorem exit_code_policy (client : ChronosClient) (expected_jobs running_jobs : List String) :
    ((mainRun client expected_jobs running_jobs).exit_code = 0 ↔
      ((mainRun client expected_jobs running_jobs).to_delete = [] ∨
        ∀ j ∈ (mainRun client expected_jobs running_jobs).to_delete,
          isinstanceException (execute_chronos_api_call_for_job client.delete_tasks j) = false ∧
          isinstanceException (execute_chronos_api_call_for_job client.delete j) = false)) ∧
    ((mainRun client expected_jobs running_jobs).exit_code = 1 ↔
      ((mainRun client expected_jobs running_jobs).to_delete ≠ [] ∧
        ∃ j ∈ (mainRun client expected_jobs running_jobs).to_delete,
          (isinstanceException (execute_chronos_api_call_for_job client.delete_tasks j) = true ∨
            isinstanceException (execute_chronos_api_call_for_job client.delete j) = true))) := by
  simp only [mainRun_exit_code, mainRun_to_delete]
  have hct : cleanup_tasks client (jobs_to_delete expected_jobs running_jobs) =
      (jobs_to_delete expected_jobs running_jobs).map
        (fun x => (x, execute_chronos_api_call_for_job client.delete_tasks x)) := rfl
  have hcj : cleanup_jobs client (jobs_to_delete expected_jobs running_jobs) =
      (jobs_to_delete expected_jobs running_jobs).map
        (fun x => (x, execute_chronos_api_call_for_job client.delete x)) := rfl
  simp only [hct, hcj, failures_of_map, List.length_map]
  set td := jobs_to_delete expected_jobs running_jobs with htd
  by_cases h0 : td = []
  · simp [h0]
  · have hlen0 : ¬ td.length = 0 := by simpa [List.length_eq_zero] using h0
    rw [if_neg hlen0]
    by_cases hcond :
        0 < (td.filter
            (fun j => isinstanceException (execute_chronos_api_call_for_job client.delete j))).length ∨
        0 < (td.filter
            (fun j => isinstanceException (execute_chronos_api_call_for_job client.delete_tasks j))).length
    · rw [if_pos hcond]
      constructor
      · constructor
        · intro h1
          exact absurd h1 (by decide)
        · intro hrhs
          rcases hrhs with h0eq | hall
          · exact absurd h0eq h0
          · exfalso
            rcases hcond with hjf | htf
            · rcases (filter_length_pos_iff td _).mp hjf with ⟨a, hamem, haq⟩
              rw [(hall a hamem).2] at haq
              cases haq
            · rcases (filter_length_pos_iff td _).mp htf with ⟨a, hamem, haq⟩
              rw [(hall a hamem).1] at haq
              cases haq
      · constructor
        · intro _
          refine ⟨h0, ?_⟩
          rcases hcond with hjf | htf
          · rcases (filter_length_pos_iff td _).mp hjf with ⟨a, hamem, haq⟩
            exact ⟨a, hamem, Or.inr haq⟩
          · rcases (filter_length_pos_iff td _).mp htf with ⟨a, hamem, haq⟩
            exact ⟨a, hamem, Or.inl haq⟩
        · intro _
          rfl
    · rw [if_neg hcond]
      push_neg at hcond
      have hjall : ∀ a ∈ td,
          isinstanceException (execute_chronos_api_call_for_job client.delete a) = false :=
        (filter_length_zero_iff td _).mp (by intro hpos; exact absurd hpos (Nat.not_lt.mpr hcond.1))
      have htall : ∀ a ∈ td,
          isinstanceException (execute_chronos_api_call_for_job client.delete_tasks a) = false :=
        (filter_length_zero_iff td _).mp (by intro hpos; exact absurd hpos (Nat.not_lt.mpr hcond.2))
      constructor
      · constructor
        · intro _
          exact Or.inr (fun j hj => ⟨htall j hj, hjall j hj⟩)
        · intro _
          rfl
      · constructor
        · intro h01
          exact absurd h01 (by decide)
        · rintro ⟨_, a, hamem, hfail⟩
          exfalso
          rcases hfail with hta | hja
          · rw [htall a hamem] at hta
            cases hta
          · rw [hjall a hamem] at hja
            cases hja

/-- Claim C6: the job-deletion attempt is made for every orphan regardless of
the task-deletion outcome; when exactly one orphan's task-delete call raises
and every other call succeeds, that orphan is the sole member of the
task-failure bucket, is absent from the task-success and job-failure buckets,
its job-delete is still attempted (the job responses cover the whole orphan
set) and it lands in the job-success bucket, and the exit status is 1. -/
theorem task_failure_independence (client : ChronosClient)
    (expected_jobs running_jobs : List String) (j0 : String) (e : PyExc)
    (hmem : j0 ∈ (mainRun client expected_jobs running_jobs).to_delete)
    (hraise : client.delete_tasks j0 = Except.error e)
    (hothers : ∀ j ∈ (mainRun client expected_jobs running_jobs).to_delete, j ≠ j0 →
      isinstanceException (execute_chronos_api_call_for_job client.delete_tasks j) = false)
    (hjobs : ∀ j ∈ (mainRun client expected_jobs running_jobs).to_delete,
      isinstanceException (execute_chronos_api_call_for_job client.delete j) = false) :
    (mainRun client expected_jobs running_jobs).task_failures.map Prod.fst = [j0] ∧
    j0 ∉ (mainRun client expected_jobs running_jobs).task_successes.map Prod.fst ∧
    (mainRun client expected_jobs running_jobs).job_responses.map Prod.fst =
      (mainRun client expected_jobs running_jobs).to_delete ∧
    j0 ∈ (mainRun client expected_jobs running_jobs).job_successes.map Prod.fst ∧
    j0 ∉ (mainRun client expected_jobs running_jobs).job_failures.map Prod.fst ∧
    (mainRun client expected_jobs running_jobs).exit_code = 1 := by
  simp only [mainRun_to_delete] at hmem hothers hjobs
  have hct : cleanup_tasks client (jobs_to_delete expected_jobs running_jobs) =
      (jobs_to_delete expected_jobs running_jobs).map
        (fun x => (x, execute_chronos_api_call_for_job client.delete_tasks x)) := rfl
  have hcj : cleanup_jobs client (jobs_to_delete expected_jobs running_jobs) =
      (jobs_to_delete expected_jobs running_jobs).map
        (fun x => (x, execute_chronos_api_call_for_job client.delete x)) := rfl
  simp only [mainRun_task_failures, mainRun_task_successes, mainRun_job_responses,
    mainRun_job_successes, mainRun_job_failures, mainRun_exit_code, mainRun_to_delete,
    hct, hcj, failures_of_map, successes_of_map, map_fst_map_pair, List.length_map]
  set td := jobs_to_delete expected_jobs running_jobs with htd
  have hq0 : isinstanceException (execute_chronos_api_call_for_job client.delete_tasks j0) =
      true := by
    simp [execute_chronos_api_call_for_job, hraise, isinstanceException]
  have hq : ∀ x ∈ td,
      (isinstanceException (execute_chronos_api_call_for_job client.delete_tasks x) = true ↔
        x = j0) := by
    intro x hx
    constructor
    · intro hxq
      by_contra hne
      rw [hothers x hx hne] at hxq
      cases hxq
    · intro hxe
      rw [hxe]
      exact hq0
  have hfilter :
      td.filter (fun x => isinstanceException (execute_chronos_api_call_for_job
        client.delete_tasks x)) = [j0] :=
    filter_eq_single td _ j0 (nodup_jobs_to_delete _ _) hmem hq
  have hjall :
      td.filter (fun x => !(isinstanceException (execute_chronos_api_call_for_job
        client.delete x))) = td := by
    rw [List.filter_eq_self]
    intro a ha
    simp [hjobs a ha]
  refine ⟨by rw [hfilter], ?_, trivial, ?_, ?_, ?_⟩
  · intro hc
    have hb := (List.mem_filter.mp hc).2
    rw [hq0] at hb
    cases hb
  · rw [hjall]
    exact hmem
  · intro hc
    have hb := (List.mem_filter.mp hc).2
    rw [hjobs j0 hmem] at hb
    cases hb
  · have hlen0 : ¬ td.length = 0 := by
      rw [List.length_eq_zero]
      intro hnil
      rw [hnil] at hmem
      cases hmem
    have hcond :
        0 < (td.filter (fun x => isinstanceException (execute_chronos_api_call_for_job
          client.delete x))).length ∨
        0 < (td.filter (fun x => isinstanceException (execute_chronos_api_call_for_job
          client.delete_tasks x))).length := by
      right
      rw [hfilter]
      simp
    rw [if_neg hlen0, if_pos hcond]

/-- Claim C6 witness: with orphans `["a", "b"]` under a client whose only
failing call is the task-delete of "a", job "a" is the sole task failure, its
job-delete is attempted and succeeds, and the run exits 1. -/
theorem task_failure_independence_witness :
    (mainRun clientOneFail [] (["a", "b"])).task_failures.map Prod.fst = [("a")] ∧
    ("a") ∉ (mainRun clientOneFail [] (["a", "b"])).task_successes.map Prod.fst ∧
    (mainRun clientOneFail [] (["a", "b"])).job_responses.map Prod.fst =
      (mainRun clientOneFail [] (["a", "b"])).to_delete ∧
    ("a") ∈ (mainRun clientOneFail [] (["a", "b"])).job_successes.map Prod.fst ∧
    ("a") ∉ (mainRun clientOneFail [] (["a", "b"])).job_failures.map Prod.fst ∧
    (mainRun clientOneFail [] (["a", "b"])).exit_code = 1 :=
  task_failure_independence clientOneFail [] (["a", "b"]) ("a") ⟨("boom")⟩
    (by decide) rfl (by decide) (by decide)
